import Mathlib

/-!
Shallow embedding of the subtitler pipeline
(`src/subtitler_util/subtitler.py`) and proofs about the claims of its
specification.

Conventions of the embedding:
* Python strings are `String`, Python `None`-able values are `Option`.
* Time offsets are modelled in integer microseconds (`Nat`): `timedelta`
  stores durations at microsecond resolution, so a non-negative
  floating-point seconds argument is represented by its value in
  microseconds after `timedelta`'s rounding.
* Python `dict`s with insertion order are `List (key × value)` together
  with `dictInsert`, which overwrites in place on an existing key and
  appends otherwise, exactly like CPython dict assignment.
* Raising an exception is an `Except` error value; the external
  collaborators (whisper model loading, the transcription engine, the
  translation provider's `translate_batch`) are oracle parameters.
-/

namespace Subtitler

/-- Python `str.lower()` restricted to ASCII, which covers every language
name and provider identifier used by the program; Python lowercases
character by character. -/
def pyLower (s : String) : String := String.mk (s.toList.map Char.toLower)

/-- The ASCII whitespace characters removed by Python `str.strip()`. -/
def isPyWhitespace (c : Char) : Bool :=
  c = ' ' || c = '\t' || c = '\n' || c = '\r' || c = '\x0b' || c = '\x0c'

/-- Python `str.strip()`: drop leading and trailing whitespace. -/
def pyStrip (s : String) : String :=
  String.mk (((s.toList.dropWhile isPyWhitespace).reverse.dropWhile isPyWhitespace).reverse)

/-- Render `n % 100` as two zero-padded decimal digit characters
(the behaviour of `strftime` `%H`/`%M`/`%S`, whose arguments are always
below 100). -/
def twoDigits (n : Nat) : List Char :=
  [Nat.digitChar (n / 10 % 10), Nat.digitChar (n % 10)]

/-- Render `n % 1000` as three zero-padded decimal digit characters
(the first three digits of `strftime` `%f`, i.e. the milliseconds kept
after the `[:-3]` slice). -/
def threeDigits (n : Nat) : List Char :=
  [Nat.digitChar (n / 100 % 10), Nat.digitChar (n / 10 % 10), Nat.digitChar (n % 10)]

/-- `format_timestamp` from `transcribe_audio`: midnight plus
`timedelta(seconds=t)`, rendered with `strftime("%H:%M:%S,%f")[:-3]`.
The input is the offset in microseconds. `datetime` arithmetic rolls
over into days, so `%H` yields the hour modulo 24; the `[:-3]` slice
truncates microseconds to milliseconds. -/
def format_timestamp (us : Nat) : String :=
  let h := us / 3600000000 % 24
  let m := us / 60000000 % 60
  let s := us / 1000000 % 60
  let ms := us / 1000 % 1000
  String.mk (twoDigits h ++ [':'] ++ twoDigits m ++ [':'] ++ twoDigits s ++ [','] ++ threeDigits ms)

/-- Numeric value of a decimal digit character. -/
def charDigit (c : Char) : Nat := c.toNat - 48

/-- Modelled from the spec: parsing an `HH:MM:SS,mmm` time code back to a
total number of milliseconds ("round-trips to the same seconds value
within 1ms when parsed back"); the program itself never parses
timestamps. Returns 0 on a malformed string. -/
def parse_timestamp_ms (t : String) : Nat :=
  match t.toList with
  | [h1, h2, _, m1, m2, _, s1, s2, _, x1, x2, x3] =>
      (charDigit h1 * 10 + charDigit h2) * 3600000 +
      (charDigit m1 * 10 + charDigit m2) * 60000 +
      (charDigit s1 * 10 + charDigit s2) * 1000 +
      (charDigit x1 * 100 + charDigit x2 * 10 + charDigit x3)
  | _ => 0

/-- Decimal digit character test. -/
def isDigitChar (c : Char) : Bool := '0' ≤ c && c ≤ '9'

/-- Modelled from the spec: the shape `HH:MM:SS,mmm` — twelve characters,
digits in the numeric positions, `:` and `,` separators. -/
def matchesTimestampFormat (t : String) : Bool :=
  match t.toList with
  | [h1, h2, c1, m1, m2, c2, s1, s2, c3, x1, x2, x3] =>
      isDigitChar h1 && isDigitChar h2 && c1 = ':' &&
      isDigitChar m1 && isDigitChar m2 && c2 = ':' &&
      isDigitChar s1 && isDigitChar s2 && c3 = ',' &&
      isDigitChar x1 && isDigitChar x2 && isDigitChar x3
  | _ => false

/-- A raw transcription-engine segment: the fields of `result["segments"]`
that `post_process_result_for_srt` reads. `id` is the engine's sequence
index; `start`/`stop` are offsets in microseconds (`seg["end"]` is
renamed because `end` is reserved). -/
structure RawSeg where
  id : Nat
  start : Nat
  stop : Nat
  text : String
deriving Repr, DecidableEq

/-- One normalized subtitle entry: `{start_time, end_time, text}`. -/
structure SubEntry where
  start_time : String
  end_time : String
  text : String
deriving Repr, DecidableEq

/-- A `TranscriptionResult`/`TranslatedResult`: an insertion-ordered
mapping from integer ids to entries, as a CPython dict. -/
abbrev TResult := List (Nat × SubEntry)

/-- CPython dict assignment `d[k] = v`: overwrite in place when `k` is
present, append otherwise. -/
def dictInsert {α : Type} (d : List (Nat × α)) (k : Nat) (v : α) : List (Nat × α) :=
  if (d.lookup k).isSome then
    d.map (fun kv => if kv.1 = k then (k, v) else kv)
  else
    d ++ [(k, v)]

/-- `post_process_result_for_srt` from `transcribe_audio`: for each raw
segment, store under id `seg["id"] + 1` the formatted start and end
times and the stripped text. -/
def post_process_result_for_srt (segs : List RawSeg) : TResult :=
  segs.foldl
    (fun acc seg =>
      dictInsert acc (seg.id + 1)
        ⟨format_timestamp seg.start, format_timestamp seg.stop, pyStrip seg.text⟩)
    []

/-- Modelled from the spec: `TRANSCRIPTION_SUPPORTED_LANGS` lives in
`constants.py`, which is not part of the supplied source. It maps
human-readable language names to ISO codes and contains the autodetect
sentinel `unknown`; the spec names english→en, spanish→es, french→fr. -/
def TRANSCRIPTION_SUPPORTED_LANGS : List (String × String) :=
  [("english", "en"), ("spanish", "es"), ("french", "fr"), ("unknown", "unknown")]

/-- Modelled from the spec: `TRANSLATION_SUPPORTED_LANGS` from the absent
`constants.py`, mapping translation target language names to ISO codes;
the spec names spanish→es and french→fr as translation targets. -/
def TRANSLATION_SUPPORTED_LANGS : List (String × String) :=
  [("spanish", "es"), ("french", "fr")]

/-- Modelled from the spec: `SUPPORTED_TRANSLATORS` from the absent
`constants.py` — the fixed supported provider set, i.e. the providers
`init_translator` dispatches on. -/
def SUPPORTED_TRANSLATORS : List String :=
  ["google", "deepl", "yandex", "microsoft", "chatgpt", "libre-translate"]

/-- Every way the embedded pipeline can raise. -/
inductive RunError where
  /-- `transcribe_audio`: "Cannot Transcribe! Unsupported Language." -/
  | unsupportedLanguage
  /-- `model.transcribe` on the `None` returned by an exhausted `init_model`:
  `AttributeError: 'NoneType' object has no attribute 'transcribe'`. -/
  | noneTranscribe
  /-- `init_translator`: "Unsupported Translator Service Provided." -/
  | unsupportedTranslator
  /-- `init_translator`: "API_KEY is necessary …". -/
  | missingApiKey
  /-- `translated_results_cache.pop(0)` on an empty list: `IndexError`. -/
  | indexError
  /-- `str + None` while building the srt file name: `TypeError`. -/
  | typeErrorNoneConcat
  /-- `whisper.load_model` raised on the forced/persisted size (no
  `try`/`except` on that path of `init_model`). -/
  | modelLoadRaised
deriving Repr, DecidableEq

/-- `get_lang_iso_code` from `save_result_as_srt`: look the language up
in the transcription vocabulary, then the translation vocabulary;
falls off the end (Python implicit `None`) when in neither. -/
def get_lang_iso_code (lang : String) : Option String :=
  match TRANSCRIPTION_SUPPORTED_LANGS.lookup lang with
  | some code => some code
  | none => TRANSLATION_SUPPORTED_LANGS.lookup lang

/-- Python `str.split(".")` on the character list: split at every dot;
the empty string yields one empty group. -/
def splitDots : List Char → List (List Char)
  | [] => [[]]
  | c :: rest =>
      let r := splitDots rest
      if c = '.' then [] :: r
      else
        match r with
        | [] => [[c]]
        | g :: gs => (c :: g) :: gs

/-- Python `".".join(parts)`. -/
def joinDots : List String → String
  | [] => ""
  | [s] => s
  | s :: rest => s ++ "." ++ joinDots rest

/-- Python `".".join(name.split(".")[:-1])`: the file name without its
last dot-separated component. -/
def baseName (name : String) : String :=
  joinDots (((splitDots name.toList).map String.mk).dropLast)

/-- Concatenating a possibly-`None` ISO code into a file name:
`str + None` raises `TypeError` in Python. -/
def concatIso (pre : String) (iso : Option String) (post : String) : Except RunError String :=
  match iso with
  | none => Except.error RunError.typeErrorNoneConcat
  | some code => Except.ok (pre ++ code ++ post)

/-- The body written for one entry of the srt file (POSIX branch):
`id`, newline, `start --> end`, newline, text, blank line. -/
def srtBlock (id : Nat) (e : SubEntry) : String :=
  toString id ++ "\n" ++ e.start_time ++ " --> " ++ e.end_time ++ "\n" ++ e.text ++ "\n\n"

/-- `save_result_as_srt` (POSIX branch): lowercase the target language,
build `<basename>.[default.]<iso>.srt` — raising `TypeError` when the
ISO lookup yielded `None` — then write one block per entry and return
the file name. Modelled as returning the pair (file name, file body). -/
def save_result_as_srt (result : TResult) (target_language : String)
    (video_file_name : String) (default_srt_file : Bool) : Except RunError (String × String) := do
  let target_language := pyLower target_language
  let srt_file_name ←
    if default_srt_file then
      concatIso (baseName video_file_name ++ ".default.") (get_lang_iso_code target_language) ".srt"
    else
      concatIso (baseName video_file_name ++ ".") (get_lang_iso_code target_language) ".srt"
  let body := result.foldl (fun acc p => acc ++ srtBlock p.1 p.2) ""
  return (srt_file_name, body)

/-- `init_translator` from `translate_transcribed_result`: reject a
provider outside the supported set; `google` needs no credential; every
other provider raises when `api_key is None`, before constructing the
provider object. The constructed provider object itself is external
state and is abstracted to `Unit`. -/
def init_translator (translator : String) (transcribed_language target_language : String)
    (api_key : Option String) : Except RunError Unit :=
  if translator ∈ SUPPORTED_TRANSLATORS then
    if translator = "google" then Except.ok ()
    else if api_key = none then Except.error RunError.missingApiKey
    else Except.ok ()
  else Except.error RunError.unsupportedTranslator

/-- The first loop of `translate_transcribed_result`: build
`translated_result` (ids with start/end times, dict-inserted) and
`translation_cache` (the texts, appended unconditionally). -/
def buildPhase (transcribed : TResult) : List (Nat × String × String) × List String :=
  transcribed.foldl
    (fun acc p =>
      (dictInsert acc.1 p.1 (p.2.start_time, p.2.end_time), acc.2 ++ [p.2.text]))
    ([], [])

/-- The second loop of `translate_transcribed_result`: for each id in
order, `pop(0)` from the provider's result list — an `IndexError` when
it is exhausted — and set the text to the popped value, or to the
placeholder `"."` when the provider returned `None` for that entry. -/
def assignTexts : List (Nat × String × String) → List (Option String) → Except RunError TResult
  | [], _ => Except.ok []
  | _ :: _, [] => Except.error RunError.indexError
  | (id, st, en) :: rest, t :: ts =>
      (assignTexts rest ts).map (fun r => (id, ⟨st, en, t.getD "."⟩) :: r)

/-- `translate_transcribed_result`: initialise the translator (its
configuration errors fire first), then the two loops around a single
`translate_batch` call, which is the oracle `provider`. The boolean
records whether `translate_batch` was reached. -/
def translate_transcribed_result (transcribed_result : TResult)
    (transcribed_language target_language : String) (translator : String)
    (api_key : Option String) (provider : List String → List (Option String)) :
    Except RunError TResult × Bool :=
  match init_translator translator transcribed_language target_language api_key with
  | Except.error e => (Except.error e, false)
  | Except.ok _ =>
      let built := buildPhase transcribed_result
      let translated_results_cache := provider built.2
      (assignTexts built.1 translated_results_cache, true)

/-- Outcome of one `whisper.load_model` attempt. -/
inductive LoadOutcome where
  /-- loaded successfully -/
  | ok
  /-- `torch.cuda.OutOfMemoryError` -/
  | oomError
  /-- any other exception -/
  | otherError
deriving Repr, DecidableEq

/-- The fallback list of `init_model`, in source order. -/
def model_sizes : List String :=
  ["large-v3-turbo", "large-v3", "large-v2", "large", "medium", "small", "base", "tiny"]

/-- The fallback loop of `init_model`: try each size in order (the
attempts are recorded), both `OutOfMemoryError` and any other exception
fall through to the next size, and the first success stops the loop.
Returns (loaded size if any, sizes attempted). -/
def fallbackLoop (load : String → LoadOutcome) : List String → Option String × List String
  | [] => (none, [])
  | s :: rest =>
      match load s with
      | LoadOutcome.ok => (some s, [s])
      | _ =>
          let r := fallbackLoop load rest
          (r.1, s :: r.2)

/-- What `init_model` produced. -/
structure InitModelOut where
  /-- `ok (some s)`: the model of size `s` was returned; `ok none`: the
  fallback list was exhausted and `None` was returned; `error`: the
  unguarded forced/persisted load raised. -/
  model : Except RunError (Option String)
  /-- contents of `.model_pref` after the call, when (re)written. -/
  savedPref : Option String
  /-- model sizes passed to `whisper.load_model`, in order. -/
  attempts : List String
deriving Repr

/-- `init_model`: `load_model_pref()` prefers the forced size, then the
persisted preference file; when either exists that single size is
loaded with no exception handler; otherwise the fallback loop runs and
the first size that loads is persisted via `save_model_pref()`. -/
def init_model (model_size : Option String) (pref : Option String)
    (load : String → LoadOutcome) : InitModelOut :=
  let load_model_pref : Option String :=
    match model_size with
    | some s => some s
    | none => pref
  match load_model_pref with
  | some s =>
      match load s with
      | LoadOutcome.ok => ⟨Except.ok (some s), none, [s]⟩
      | _ => ⟨Except.error RunError.modelLoadRaised, none, [s]⟩
  | none =>
      let r := fallbackLoop load model_sizes
      ⟨Except.ok r.1, r.1, r.2⟩

/-- Observable events of a pipeline run, in order. -/
inductive Ev where
  /-- a `progress: current/total` line on standard output. -/
  | progress (cur tot : Nat)
  /-- `whisper.load_audio(audio_file)` inside `transcribe_audio`: the
  audio input is read. -/
  | loadAudio (file : String)
  /-- `model.transcribe(...)`: the transcription engine is invoked. -/
  | engineTranscribe (file : String)
  /-- `translator.translate_batch(...)`: the provider network call. -/
  | batchTranslate
  /-- an srt file written under the given name. -/
  | saveSrt (name : String)
deriving Repr, DecidableEq

/-- `transcribe_audio`: lowercase the language and reject it when it is
not in the transcription vocabulary, before anything else; then
`whisper.load_audio` reads the input; then `model.transcribe` runs —
which, when `init_model` returned `None`, is an `AttributeError` on
`None`. The engine is the oracle `engine` (model size, audio file ↦ raw
segments). Returns the normalized result and the events that happened. -/
def transcribe_audio (engine : String → String → List RawSeg) (model : Option String)
    (audio_file : String) (language : String) : Except RunError TResult × List Ev :=
  let language := pyLower language
  if (TRANSCRIPTION_SUPPORTED_LANGS.lookup language).isNone then
    (Except.error RunError.unsupportedLanguage, [])
  else
    match model with
    | none => (Except.error RunError.noneTranscribe, [Ev.loadAudio audio_file])
    | some size =>
        (Except.ok (post_process_result_for_srt (engine size audio_file)),
         [Ev.loadAudio audio_file, Ev.engineTranscribe audio_file])

/-- The mutable locals of `subtitle` plus the ordered event log. -/
structure SubState where
  current_step : Nat
  total_steps : Nat
  evs : List Ev
deriving Repr

/-- `print_and_update_progress`: only in gui mode, print the
`progress: current/total` line and — also only in gui mode — increment
`current_step` when asked to. -/
def print_and_update_progress (gui : Bool) (update_progress : Bool) (st : SubState) : SubState :=
  if gui then
    { st with
      evs := st.evs ++ [Ev.progress st.current_step st.total_steps],
      current_step := if update_progress then st.current_step + 1 else st.current_step }
  else st

/-- Record some non-progress events. -/
def logEvs (st : SubState) (es : List Ev) : SubState :=
  { st with evs := st.evs ++ es }

/-- The inner loop of `subtitle` over the requested target languages:
translate the transcript, emit progress, save the translated srt
(non-default naming), emit progress. Any raise aborts with the events
so far. -/
def subtitleLangsLoop (gui : Bool) (provider : List String → List (Option String))
    (translation_service : String) (api_key : Option String) (video_language : String)
    (r : TResult) (vid_file : String) :
    List String → SubState → Except RunError Unit × SubState
  | [], st => (Except.ok (), st)
  | translation_lang :: rest, st =>
      let tr := translate_transcribed_result r video_language translation_lang
        translation_service api_key provider
      let st := if tr.2 then logEvs st [Ev.batchTranslate] else st
      match tr.1 with
      | Except.error e => (Except.error e, st)
      | Except.ok r2 =>
          let st := print_and_update_progress gui true st
          match save_result_as_srt r2 translation_lang vid_file false with
          | Except.error e => (Except.error e, st)
          | Except.ok saved =>
              let st := logEvs st [Ev.saveSrt saved.1]
              let st := print_and_update_progress gui true st
              subtitleLangsLoop gui provider translation_service api_key video_language
                r vid_file rest st

/-- The outer loop of `subtitle` over the audio inputs: transcribe, emit
progress, save the default srt, emit progress, then the language loop. -/
def subtitleFilesLoop (gui : Bool) (engine : String → String → List RawSeg)
    (provider : List String → List (Option String)) (vid_file_map : String → String)
    (video_language : String) (translation_languages : List String)
    (translation_service : String) (api_key : Option String) (model : Option String) :
    List String → SubState → Except RunError Unit × SubState
  | [], st => (Except.ok (), st)
  | audio_file :: rest, st =>
      let t := transcribe_audio engine model audio_file video_language
      let st := logEvs st t.2
      match t.1 with
      | Except.error e => (Except.error e, st)
      | Except.ok r =>
          let st := print_and_update_progress gui true st
          match save_result_as_srt r video_language (vid_file_map audio_file) true with
          | Except.error e => (Except.error e, st)
          | Except.ok saved =>
              let st := logEvs st [Ev.saveSrt saved.1]
              let st := print_and_update_progress gui true st
              match subtitleLangsLoop gui provider translation_service api_key video_language
                  r (vid_file_map audio_file) translation_languages st with
              | (Except.error e, st) => (Except.error e, st)
              | (Except.ok _, st) =>
                  subtitleFilesLoop gui engine provider vid_file_map video_language
                    translation_languages translation_service api_key model rest st

/-- `subtitle`: start with `total_steps = 2`, `current_step = 1`, emit a
progress line, run `init_model` (a raise there propagates), emit a
progress line with increment, grow `total_steps` by
`2·inputs + 2·inputs·targets`, emit a progress line, then the nested
loops. External collaborators are the oracles `load` (model loading),
`engine` (transcription) and `provider` (`translate_batch`). -/
def subtitle (vid_file_map : String → String) (audio_files : List String)
    (video_language : String) (translation_languages : List String)
    (translation_service : String) (api_key : Option String)
    (model_size : Option String) (pref : Option String) (gui : Bool)
    (load : String → LoadOutcome) (engine : String → String → List RawSeg)
    (provider : List String → List (Option String)) :
    Except RunError Unit × SubState :=
  let st : SubState := ⟨1, 2, []⟩
  let st := print_and_update_progress gui false st
  let im := init_model model_size pref load
  match im.model with
  | Except.error e => (Except.error e, st)
  | Except.ok model =>
      let st := print_and_update_progress gui true st
      let st := { st with
        total_steps := st.total_steps +
          audio_files.length * 2 + audio_files.length * translation_languages.length * 2 }
      let st := print_and_update_progress gui false st
      subtitleFilesLoop gui engine provider vid_file_map video_language
        translation_languages translation_service api_key model audio_files st

/-- The `progress: current/total` signals of an event log, in order. -/
def progressSignals (evs : List Ev) : List (Nat × Nat) :=
  evs.filterMap (fun e =>
    match e with
    | Ev.progress c t => some (c, t)
    | _ => none)

/-! ## Helper lemmas -/

theorem mod10_lt (n : Nat) : n % 10 < 10 := Nat.mod_lt _ (by norm_num)

theorem isDigitChar_digitChar_mod (n : Nat) : isDigitChar (Nat.digitChar (n % 10)) = true := by
  have h : n % 10 < 10 := mod10_lt n
  revert h
  generalize n % 10 = d
  intro h
  interval_cases d <;> decide

theorem charDigit_digitChar_mod (n : Nat) : charDigit (Nat.digitChar (n % 10)) = n % 10 := by
  have h : n % 10 < 10 := mod10_lt n
  revert h
  generalize n % 10 = d
  intro h
  interval_cases d <;> decide

theorem lookup_eq_none_of_keys {α : Type} (d : List (Nat × α)) (k : Nat)
    (h : ∀ p ∈ d, p.1 ≠ k) : d.lookup k = none := by
  induction d with
  | nil => rfl
  | cons hd tl ih =>
      obtain ⟨a, v⟩ := hd
      have ha : a ≠ k := h (a, v) (by simp)
      have hne : (k == a) = false := beq_eq_false_iff_ne.mpr (fun hk => ha hk.symm)
      simp only [List.lookup, hne]
      exact ih (fun p hp => h p (by simp [hp]))

theorem dictInsert_fresh {α : Type} (d : List (Nat × α)) (k : Nat) (v : α)
    (h : ∀ p ∈ d, p.1 ≠ k) : dictInsert d k v = d ++ [(k, v)] := by
  simp [dictInsert, lookup_eq_none_of_keys d k h]

/-- The per-segment entry of `post_process_result_for_srt`. -/
def segEntry (seg : RawSeg) : Nat × SubEntry :=
  (seg.id + 1, ⟨format_timestamp seg.start, format_timestamp seg.stop, pyStrip seg.text⟩)

theorem pp_aux (segs : List RawSeg) :
    ∀ (acc : TResult) (m : Nat),
      (∀ i (h : i < segs.length), (segs.get ⟨i, h⟩).id = m + i) →
      (∀ p ∈ acc, p.1 < m + 1) →
      segs.foldl
        (fun acc seg =>
          dictInsert acc (seg.id + 1)
            ⟨format_timestamp seg.start, format_timestamp seg.stop, pyStrip seg.text⟩)
        acc = acc ++ segs.map segEntry := by
  induction segs with
  | nil => intro acc m _ _; simp
  | cons seg rest ih =>
      intro acc m hid hacc
      have hseg : seg.id = m := by simpa using hid 0 (by simp)
      have hfresh : ∀ p ∈ acc, p.1 ≠ seg.id + 1 := by
        intro p hp
        have := hacc p hp
        omega
      have hid' : ∀ i (h : i < rest.length), (rest.get ⟨i, h⟩).id = (m + 1) + i := by
        intro i h
        have h2 : (rest.get ⟨i, h⟩).id = m + (i + 1) := by
          simpa using hid (i + 1) (by simpa using Nat.succ_lt_succ h)
        omega
      have hacc' : ∀ p ∈ acc ++ [(seg.id + 1,
          (⟨format_timestamp seg.start, format_timestamp seg.stop, pyStrip seg.text⟩ : SubEntry))],
          p.1 < (m + 1) + 1 := by
        intro p hp
        rcases List.mem_append.mp hp with h1 | h1
        · exact Nat.lt_succ_of_lt (hacc p h1)
        · have hp1 : p.1 = seg.id + 1 := by
            simp at h1
            simp [h1]
          omega
      rw [List.foldl_cons, dictInsert_fresh _ _ _ hfresh, ih _ (m + 1) hid' hacc']
      simp [segEntry, List.append_assoc]

theorem buildPhase_aux (t : TResult) :
    ∀ (acc : List (Nat × String × String)) (cache : List String),
      (∀ k ∈ acc.map Prod.fst, k ∉ t.map Prod.fst) →
      (t.map Prod.fst).Nodup →
      t.foldl
        (fun acc p =>
          (dictInsert acc.1 p.1 (p.2.start_time, p.2.end_time), acc.2 ++ [p.2.text]))
        (acc, cache) =
        (acc ++ t.map (fun p => (p.1, p.2.start_time, p.2.end_time)),
         cache ++ t.map (fun p => p.2.text)) := by
  induction t with
  | nil => intro acc cache _ _; simp
  | cons hd tl ih =>
      intro acc cache hdisj hnd
      have hfresh : ∀ p ∈ acc, p.1 ≠ hd.1 := by
        intro p hp heq
        exact hdisj p.1 (List.mem_map_of_mem _ hp) (by simp [heq])
      rw [List.foldl_cons]
      show tl.foldl _ (dictInsert acc hd.1 (hd.2.start_time, hd.2.end_time),
        cache ++ [hd.2.text]) = _
      rw [dictInsert_fresh _ _ _ hfresh]
      have hnd2 : (hd.1 :: tl.map Prod.fst).Nodup := by simpa using hnd
      have hnd' : (tl.map Prod.fst).Nodup := (List.nodup_cons.mp hnd2).2
      have hhd : hd.1 ∉ tl.map Prod.fst := (List.nodup_cons.mp hnd2).1
      rw [ih (acc ++ [(hd.1, hd.2.start_time, hd.2.end_time)]) (cache ++ [hd.2.text]) ?_ hnd']
      · simp [List.append_assoc]
      · intro k hk
        rcases List.mem_map.mp hk with ⟨p, hp, rfl⟩
        rcases List.mem_append.mp hp with h1 | h1
        · intro hmem
          exact hdisj p.1 (List.mem_map_of_mem _ h1) (by simp [hmem])
        · simp only [List.mem_singleton] at h1
          rw [h1]
          exact hhd

theorem buildPhase_closed (t : TResult) (hnd : (t.map Prod.fst).Nodup) :
    buildPhase t =
      (t.map (fun p => (p.1, p.2.start_time, p.2.end_time)), t.map (fun p => p.2.text)) := by
  have := buildPhase_aux t [] [] (by simp) hnd
  simpa [buildPhase] using this

theorem assignTexts_eq (tr : List (Nat × String × String)) :
    ∀ (res : List (Option String)), tr.length ≤ res.length →
      assignTexts tr res =
        Except.ok ((tr.zip res).map
          (fun q => (q.1.1, ⟨q.1.2.1, q.1.2.2, q.2.getD "."⟩))) := by
  induction tr with
  | nil => intro res _; simp [assignTexts]
  | cons hd tl ih =>
      intro res h
      cases res with
      | nil => simp at h
      | cons a as =>
          obtain ⟨id, st, en⟩ := hd
          simp [assignTexts, ih as (by simpa using h), Except.map]

theorem assignTexts_ok_length (tr : List (Nat × String × String)) :
    ∀ (res : List (Option String)) (r : TResult),
      assignTexts tr res = Except.ok r → tr.length ≤ res.length := by
  induction tr with
  | nil => intro res r _; simp
  | cons hd tl ih =>
      intro res r h
      cases res with
      | nil =>
          obtain ⟨id, st, en⟩ := hd
          simp [assignTexts] at h
      | cons a as =>
          obtain ⟨id, st, en⟩ := hd
          rcases hres : assignTexts tl as with e | r'
          · simp [assignTexts, hres, Except.map] at h
          · simpa using Nat.succ_le_succ (ih as r' hres)

theorem fallbackLoop_first_success (load : String → LoadOutcome) :
    ∀ (pfx : List String) (sz : String) (sfx : List String),
      (∀ x ∈ pfx, load x ≠ LoadOutcome.ok) → load sz = LoadOutcome.ok →
      fallbackLoop load (pfx ++ sz :: sfx) = (some sz, pfx ++ [sz]) := by
  intro pfx
  induction pfx with
  | nil =>
      intro sz sfx _ hsz
      simp [fallbackLoop, hsz]
  | cons hd tl ih =>
      intro sz sfx hpfx hsz
      have hhd : load hd ≠ LoadOutcome.ok := hpfx hd (by simp)
      rw [List.cons_append]
      unfold fallbackLoop
      rcases hload : load hd with _ | _ | _
      · exact absurd hload hhd
      · simp [ih sz sfx (fun x hx => hpfx x (by simp [hx])) hsz]
      · simp [ih sz sfx (fun x hx => hpfx x (by simp [hx])) hsz]

/-! ## Claim theorems -/

/-- Claim C5 (amended): for every non-negative duration (in integer
microseconds, the resolution of `timedelta`), the Timestamp Formatter
returns a zero-padded `HH:MM:SS,mmm` string; for durations below 24
hours it parses back to the same value within 1 millisecond (exactly:
to the value truncated to whole milliseconds).  The original claim's
"no upper bound enforced on hours" is false: `datetime` arithmetic
wraps the hour field modulo 24, see the counterexample. -/
theorem claim_c5_format_timestamp_roundtrip (us : Nat) :
    matchesTimestampFormat (format_timestamp us) = true ∧
    (us < 86400000000 →
      parse_timestamp_ms (format_timestamp us) = us / 1000 ∧
      parse_timestamp_ms (format_timestamp us) * 1000 ≤ us ∧
      us < parse_timestamp_ms (format_timestamp us) * 1000 + 1000) := by
  constructor
  · unfold format_timestamp matchesTimestampFormat
    simp only [twoDigits, threeDigits, List.cons_append, List.nil_append]
    simp only [String.toList, String.mk]
    simp [isDigitChar_digitChar_mod]
  · intro h
    have hp : parse_timestamp_ms (format_timestamp us) = us / 1000 := by
      unfold format_timestamp parse_timestamp_ms
      simp only [twoDigits, threeDigits, List.cons_append, List.nil_append]
      simp only [String.toList, String.mk]
      simp only [charDigit_digitChar_mod]
      omega
    refine ⟨hp, ?_, ?_⟩ <;> rw [hp] <;> omega

/-- Witness for C5: 3723.456789 seconds renders and round-trips. -/
theorem claim_c5_witness :
    3723456789 < 86400000000 ∧
    matchesTimestampFormat (format_timestamp 3723456789) = true ∧
    parse_timestamp_ms (format_timestamp 3723456789) = 3723456789 / 1000 :=
  ⟨by decide, (claim_c5_format_timestamp_roundtrip 3723456789).1,
    ((claim_c5_format_timestamp_roundtrip 3723456789).2 (by decide)).1⟩

/-- Counterexample for C5 as stated: at 86400 seconds (24 hours) the
formatter emits `00:00:00,000` — the hour wrapped modulo 24 — which
parses back to 0, off by a full day rather than within 1 millisecond. -/
theorem claim_c5_counterexample :
    format_timestamp 86400000000 = "00:00:00,000" ∧
    parse_timestamp_ms (format_timestamp 86400000000) = 0 ∧
    parse_timestamp_ms (format_timestamp 86400000000) * 1000 + 1000 ≤ 86400000000 :=
  ⟨by decide, by decide, by decide⟩

/-- Claim C7 (confirmed): a supported non-default provider with no
credential, and an unsupported provider, each make
`translate_transcribed_result` raise the corresponding configuration
error from `init_translator`, with `translate_batch` never reached
(the `false` component: no network call), independent of the provider
oracle. -/
theorem claim_c7_translator_config_errors (serv tl lang : String) (t : TResult)
    (provider : List String → List (Option String)) :
    (serv ∈ SUPPORTED_TRANSLATORS → serv ≠ "google" →
      translate_transcribed_result t tl lang serv none provider =
        (Except.error RunError.missingApiKey, false)) ∧
    (serv ∉ SUPPORTED_TRANSLATORS → ∀ key,
      translate_transcribed_result t tl lang serv key provider =
        (Except.error RunError.unsupportedTranslator, false)) := by
  constructor
  · intro h1 h2
    simp [translate_transcribed_result, init_translator, h1, h2]
  · intro h key
    simp [translate_transcribed_result, init_translator, h]

/-- Witness for C7: `deepl` without a key, and an unknown provider. -/
theorem claim_c7_witness :
    translate_transcribed_result [] "english" "spanish" "deepl" none (fun l => l.map some) =
      (Except.error RunError.missingApiKey, false) ∧
    translate_transcribed_result [] "english" "spanish" "esperantoid" none (fun l => l.map some) =
      (Except.error RunError.unsupportedTranslator, false) :=
  ⟨(claim_c7_translator_config_errors "deepl" "english" "spanish" [] (fun l => l.map some)).1
      (by decide) (by decide),
    (claim_c7_translator_config_errors "esperantoid" "english" "spanish" [] (fun l => l.map some)).2
      (by decide) none⟩

/-- Claim C8 (confirmed): a declared source language whose lowercase
form is not in the transcription vocabulary makes `transcribe_audio`
raise the unsupported-language error with an empty event list — in
particular the audio is never read and the engine is never invoked —
for every engine, model and audio file. -/
theorem claim_c8_unsupported_language_fails_fast (engine : String → String → List RawSeg)
    (model : Option String) (audio_file language : String)
    (h : (TRANSCRIPTION_SUPPORTED_LANGS.lookup (pyLower language)).isNone = true) :
    transcribe_audio engine model audio_file language =
      (Except.error RunError.unsupportedLanguage, []) := by
  simp [transcribe_audio, h]

/-- Witness for C8: `klingon` is rejected before any engine call. -/
theorem claim_c8_witness :
    (TRANSCRIPTION_SUPPORTED_LANGS.lookup (pyLower "Klingon")).isNone = true ∧
    transcribe_audio (fun _ _ => []) (some "tiny") "a.wav" "Klingon" =
      (Except.error RunError.unsupportedLanguage, []) :=
  ⟨by decide,
    claim_c8_unsupported_language_fails_fast (fun _ _ => []) (some "tiny") "a.wav" "Klingon"
      (by decide)⟩

/-- Claim C9 (confirmed): `init_model` honors the precedence. With a
forced size only that size is ever passed to `whisper.load_model` (the
fallback list is never consulted) and a successful load returns it;
with no forced size and no persisted preference the fallback list is
walked in its fixed order, failing sizes are skipped, and the first
size that loads is returned and persisted as the new preference. -/
theorem claim_c9_init_model_precedence (load : String → LoadOutcome) :
    (∀ (s : String) (pref : Option String),
      (init_model (some s) pref load).attempts = [s] ∧
      (load s = LoadOutcome.ok → (init_model (some s) pref load).model = Except.ok (some s))) ∧
    (∀ (pfx : List String) (sz : String) (sfx : List String),
      model_sizes = pfx ++ sz :: sfx →
      (∀ x ∈ pfx, load x ≠ LoadOutcome.ok) → load sz = LoadOutcome.ok →
      init_model none none load = ⟨Except.ok (some sz), some sz, pfx ++ [sz]⟩) := by
  constructor
  · intro s pref
    constructor
    · unfold init_model
      rcases hload : load s with _ | _ | _ <;> simp [hload]
    · intro hok
      simp [init_model, hok]
  · intro pfx sz sfx hsplit hpfx hsz
    unfold init_model
    simp only [hsplit, fallbackLoop_first_success load pfx sz sfx hpfx hsz]

/-- Witness for C9: a forced `tiny` is the only attempt; with nothing
forced and no preference, a loader on which only `medium` fits walks
the list down to `medium` and persists it. -/
theorem claim_c9_witness :
    (init_model (some "tiny") none (fun _ => LoadOutcome.ok)).attempts = ["tiny"] ∧
    (init_model (some "tiny") none (fun _ => LoadOutcome.ok)).model = Except.ok (some "tiny") ∧
    init_model none none (fun s => if s = "medium" then LoadOutcome.ok else LoadOutcome.oomError) =
      ⟨Except.ok (some "medium"), some "medium",
        ["large-v3-turbo", "large-v3", "large-v2", "large", "medium"]⟩ :=
  ⟨((claim_c9_init_model_precedence (fun _ => LoadOutcome.ok)).1 "tiny" none).1,
    ((claim_c9_init_model_precedence (fun _ => LoadOutcome.ok)).1 "tiny" none).2 rfl,
    (claim_c9_init_model_precedence
        (fun s => if s = "medium" then LoadOutcome.ok else LoadOutcome.oomError)).2
      ["large-v3-turbo", "large-v3", "large-v2", "large"] "medium" ["small", "base", "tiny"]
      (by decide) (by decide) (by decide)⟩

/-- Claim C10 (amended): for a language in neither vocabulary the ISO
lookup yields `None`, and `save_result_as_srt` then raises a
`TypeError` from concatenating `None` into the file name — before any
file is written.  The original claim (no error, a file named with the
literal text "None") is false: Python `str + None` raises. -/
theorem claim_c10_no_iso_code_raises (result : TResult) (lang vid : String) (dflt : Bool)
    (h1 : TRANSCRIPTION_SUPPORTED_LANGS.lookup (pyLower lang) = none)
    (h2 : TRANSLATION_SUPPORTED_LANGS.lookup (pyLower lang) = none) :
    save_result_as_srt result lang vid dflt = Except.error RunError.typeErrorNoneConcat := by
  cases dflt <;> simp [save_result_as_srt, get_lang_iso_code, concatIso, h1, h2]

/-- Witness for C10 (amended): `klingon` is in neither vocabulary and
the save raises. -/
theorem claim_c10_witness :
    TRANSCRIPTION_SUPPORTED_LANGS.lookup (pyLower "klingon") = none ∧
    TRANSLATION_SUPPORTED_LANGS.lookup (pyLower "klingon") = none ∧
    save_result_as_srt [(1, ⟨"00:00:00,000", "00:00:01,000", "hi"⟩)] "klingon" "v.mp4" true =
      Except.error RunError.typeErrorNoneConcat :=
  ⟨by decide, by decide,
    claim_c10_no_iso_code_raises [(1, ⟨"00:00:00,000", "00:00:01,000", "hi"⟩)] "klingon" "v.mp4"
      true (by decide) (by decide)⟩

/-- Counterexample for C10 as stated: for `klingon` (in neither
vocabulary) `save_result_as_srt` raises instead of returning a
`<basename>.None.srt` file name. -/
theorem claim_c10_counterexample :
    get_lang_iso_code (pyLower "klingon") = none ∧
    save_result_as_srt [(1, ⟨"00:00:00,000", "00:00:01,000", "hi"⟩)] "klingon" "v.mp4" false =
      Except.error RunError.typeErrorNoneConcat :=
  ⟨by decide, rfl⟩

/-- Claim C1 (amended): for a batch of n texts with unique ids, when
the provider returns at least n results the output has exactly n
entries, output[i] being the provider's i-th result or the
single-character placeholder `"."` where the provider returned `None`.
The original claim fails when the provider returns fewer than n
results: `translated_results_cache.pop(0)` then raises `IndexError`
instead of filling the remaining positions with the placeholder — see
the counterexample. -/
theorem claim_c1_batch_translation (t : TResult) (tlang lang : String) (key : Option String)
    (provider : List String → List (Option String))
    (hnd : (t.map Prod.fst).Nodup)
    (hlen : t.length ≤ (provider (t.map (fun p => p.2.text))).length) :
    ∃ r, (translate_transcribed_result t tlang lang "google" key provider).1 = Except.ok r ∧
      r.length = t.length ∧
      ∀ i (h : i < r.length),
        (r.get ⟨i, h⟩).2.text =
          ((provider (t.map (fun p => p.2.text))).getD i none).getD "." := by
  unfold translate_transcribed_result
  have hinit : init_translator "google" tlang lang key = Except.ok () := by
    simp [init_translator, SUPPORTED_TRANSLATORS]
  rw [hinit]
  simp only
  rw [buildPhase_closed t hnd]
  set res := provider (t.map (fun p => p.2.text)) with hres
  have hlen' : (t.map (fun p => (p.1, p.2.start_time, p.2.end_time))).length ≤ res.length := by
    simpa using hlen
  rw [assignTexts_eq _ _ hlen']
  refine ⟨_, rfl, ?_, ?_⟩
  · simp [List.length_zip]
    omega
  · intro i h
    simp only [List.length_map, List.length_zip, List.length_map, lt_min_iff] at h
    simp only [List.get_eq_getElem, List.getElem_map, List.getElem_zip]
    have hgetD : res.getD i none = res[i] := by
      rw [List.getD_eq_getElem res none h.2]
    rw [hgetD]

/-- Witness for C1 (amended): two entries, the provider returns three
results with a `None` in second position; the output has two entries,
the second getting the placeholder. -/
theorem claim_c1_witness :
    ∃ r, (translate_transcribed_result
        [(1, ⟨"00:00:00,000", "00:00:01,000", "x"⟩), (2, ⟨"00:00:01,000", "00:00:02,000", "y"⟩)]
        "english" "spanish" "google" none
        (fun _ => [some "X", none, some "Z"])).1 = Except.ok r ∧
      r.length = 2 ∧
      ∀ i (h : i < r.length),
        (r.get ⟨i, h⟩).2.text =
          (([some "X", none, some "Z"] : List (Option String)).getD i none).getD "." :=
  claim_c1_batch_translation
    [(1, ⟨"00:00:00,000", "00:00:01,000", "x"⟩), (2, ⟨"00:00:01,000", "00:00:02,000", "y"⟩)]
    "english" "spanish" none (fun _ => [some "X", none, some "Z"])
    (by decide) (by decide)

/-- Counterexample for C1 as stated: one input text, the provider
returns zero results (fewer than n = 1); the adapter raises
`IndexError` (the cache `pop(0)` on an empty list) — the output is not
a 1-entry list with the placeholder. -/
theorem claim_c1_counterexample :
    (translate_transcribed_result [(1, ⟨"00:00:00,000", "00:00:01,000", "hello"⟩)]
        "english" "spanish" "google" none (fun _ => [])).1 =
      Except.error RunError.indexError ∧
    ((fun (_ : List String) => ([] : List (Option String))) ["hello"]).length < 1 :=
  ⟨rfl, by decide⟩

/-- Claim C3 (confirmed): whenever `translate_transcribed_result`
produces a `TranslatedResult` (for any provider, languages and
credential), the id sequence and every entry's `start_time` and
`end_time` are identical to the source's; only the text differs.
(The id-uniqueness hypothesis is the `dict` invariant of every Python
`TranscriptionResult`.) -/
theorem claim_c3_translation_preserves_ids_times (t : TResult) (tlang lang serv : String)
    (key : Option String) (provider : List String → List (Option String)) (r : TResult)
    (hnd : (t.map Prod.fst).Nodup)
    (hok : (translate_transcribed_result t tlang lang serv key provider).1 = Except.ok r) :
    r.map Prod.fst = t.map Prod.fst ∧
    r.map (fun p => (p.2.start_time, p.2.end_time)) =
      t.map (fun p => (p.2.start_time, p.2.end_time)) := by
  unfold translate_transcribed_result at hok
  rcases hinit : init_translator serv tlang lang key with e | u
  · rw [hinit] at hok
    simp at hok
  · rw [hinit] at hok
    simp only at hok
    rw [buildPhase_closed t hnd] at hok
    set res := provider (t.map (fun p => p.2.text)) with hres
    have hlen : (t.map (fun p => (p.1, p.2.start_time, p.2.end_time))).length ≤ res.length :=
      assignTexts_ok_length _ _ _ hok
    rw [assignTexts_eq _ _ hlen] at hok
    have hr : r = (((t.map (fun p => (p.1, p.2.start_time, p.2.end_time))).zip res).map
        (fun q => (q.1.1, ⟨q.1.2.1, q.1.2.2, q.2.getD "."⟩))) := by
      injection hok with h
      exact h.symm
    have hfst : ((t.map (fun p => (p.1, p.2.start_time, p.2.end_time))).zip res).map Prod.fst =
        t.map (fun p => (p.1, p.2.start_time, p.2.end_time)) :=
      List.map_fst_zip _ _ hlen
    constructor
    · rw [hr, List.map_map]
      have : (Prod.fst ∘ fun q : (Nat × String × String) × Option String =>
          ((q.1.1, (⟨q.1.2.1, q.1.2.2, q.2.getD "."⟩ : SubEntry)))) =
          (Prod.fst ∘ Prod.fst) := rfl
      rw [this, ← List.map_map, hfst, List.map_map]
      rfl
    · rw [hr, List.map_map]
      have : ((fun p : Nat × SubEntry => (p.2.start_time, p.2.end_time)) ∘
          fun q : (Nat × String × String) × Option String =>
            ((q.1.1, (⟨q.1.2.1, q.1.2.2, q.2.getD "."⟩ : SubEntry)))) =
          ((fun x : Nat × String × String => (x.2.1, x.2.2)) ∘ Prod.fst) := rfl
      rw [this, ← List.map_map, hfst, List.map_map]
      rfl

/-- Witness for C3: a concrete two-entry translation keeps ids and
times. -/
theorem claim_c3_witness :
    [(1, (⟨"00:00:00,000", "00:00:01,000", "x!"⟩ : SubEntry)),
        (2, ⟨"00:00:01,000", "00:00:02,000", "y!"⟩)].map Prod.fst =
      [(1, (⟨"00:00:00,000", "00:00:01,000", "x"⟩ : SubEntry)),
        (2, ⟨"00:00:01,000", "00:00:02,000", "y"⟩)].map Prod.fst ∧
    [(1, (⟨"00:00:00,000", "00:00:01,000", "x!"⟩ : SubEntry)),
        (2, ⟨"00:00:01,000", "00:00:02,000", "y!"⟩)].map
        (fun p => (p.2.start_time, p.2.end_time)) =
      [(1, (⟨"00:00:00,000", "00:00:01,000", "x"⟩ : SubEntry)),
        (2, ⟨"00:00:01,000", "00:00:02,000", "y"⟩)].map
        (fun p => (p.2.start_time, p.2.end_time)) :=
  claim_c3_translation_preserves_ids_times
    [(1, ⟨"00:00:00,000", "00:00:01,000", "x"⟩), (2, ⟨"00:00:01,000", "00:00:02,000", "y"⟩)]
    "english" "spanish" "google" none (fun l => l.map (fun s => some (s ++ "!")))
    [(1, ⟨"00:00:00,000", "00:00:01,000", "x!"⟩), (2, ⟨"00:00:01,000", "00:00:02,000", "y!"⟩)]
    (by decide) rfl

/-- Claim C4 (confirmed): for raw segments carrying their zero-based
sequence index (the §4.2 input contract), the Segment Normalizer's
output has ids exactly `1..n` in input order with no gaps — one entry
per input segment, no reordering, filtering or merging — and each
output text is the input text stripped of surrounding whitespace. -/
theorem claim_c4_segment_normalizer (segs : List RawSeg)
    (hid : ∀ i (h : i < segs.length), (segs.get ⟨i, h⟩).id = i) :
    (post_process_result_for_srt segs).map Prod.fst = (List.range segs.length).map (· + 1) ∧
    (post_process_result_for_srt segs).map (fun p => p.2.text) =
      segs.map (fun s => pyStrip s.text) := by
  have hpp : post_process_result_for_srt segs = segs.map segEntry := by
    have := pp_aux segs [] 0 (by simpa using hid) (by simp)
    simpa [post_process_result_for_srt] using this
  rw [hpp]
  constructor
  · rw [List.map_map]
    apply List.ext_get (by simp)
    intro i h1 h2
    simp only [List.get_eq_getElem, List.getElem_map, Function.comp, segEntry,
      List.getElem_range]
    simpa using hid i (by simpa using h1)
  · rw [List.map_map]
    rfl

/-- Witness for C4: two segments with indices 0 and 1. -/
theorem claim_c4_witness :
    (post_process_result_for_srt
        [⟨0, 0, 1000000, " a "⟩, ⟨1, 1000000, 2500000, "b "⟩]).map Prod.fst =
      (List.range 2).map (· + 1) ∧
    (post_process_result_for_srt
        [⟨0, 0, 1000000, " a "⟩, ⟨1, 1000000, 2500000, "b "⟩]).map (fun p => p.2.text) =
      [(⟨0, 0, 1000000, " a "⟩ : RawSeg), ⟨1, 1000000, 2500000, "b "⟩].map
        (fun s => pyStrip s.text) :=
  claim_c4_segment_normalizer [⟨0, 0, 1000000, " a "⟩, ⟨1, 1000000, 2500000, "b "⟩]
    (by
      intro i h
      have h2 : i < 2 := by simpa using h
      interval_cases i <;> rfl)

theorem fallbackLoop_exhausted (load : String → LoadOutcome) :
    ∀ (l : List String), (∀ s ∈ l, load s ≠ LoadOutcome.ok) →
      fallbackLoop load l = (none, l) := by
  intro l
  induction l with
  | nil => intro _; rfl
  | cons hd tl ih =>
      intro h
      have hhd : load hd ≠ LoadOutcome.ok := h hd (by simp)
      unfold fallbackLoop
      rcases hload : load hd with _ | _ | _
      · exact absurd hload hhd
      · simp [ih (fun s hs => h s (by simp [hs]))]
      · simp [ih (fun s hs => h s (by simp [hs]))]

theorem init_model_exhausted (load : String → LoadOutcome)
    (h : ∀ s, load s ≠ LoadOutcome.ok) :
    init_model none none load = ⟨Except.ok none, none, model_sizes⟩ := by
  unfold init_model
  rw [fallbackLoop_exhausted load model_sizes (fun s _ => h s)]

/-- Claim C2 (amended): when the fallback list is exhausted,
`init_model` returns `None` and `subtitle` performs no check at all: it
proceeds into the per-input loop, where `transcribe_audio` reads the
first audio input (`whisper.load_audio`) and only then fails with an
`AttributeError` when `transcribe` is invoked on the absent model. The
run does abort and the engine is never invoked, but the original
claim's "aborts before touching any audio input (no input is read)" is
false — see the counterexample, whose trace reads the input. -/
theorem claim_c2_no_model_aborts_late (vid_file_map : String → String) (f : String)
    (rest : List String) (video_language : String) (translation_languages : List String)
    (serv : String) (key : Option String) (gui : Bool)
    (load : String → LoadOutcome) (engine : String → String → List RawSeg)
    (provider : List String → List (Option String))
    (hfail : ∀ s, load s ≠ LoadOutcome.ok)
    (hlang : (TRANSCRIPTION_SUPPORTED_LANGS.lookup (pyLower video_language)).isNone = false) :
    (subtitle vid_file_map (f :: rest) video_language translation_languages serv key
        none none gui load engine provider).1 = Except.error RunError.noneTranscribe ∧
    Ev.loadAudio f ∈ (subtitle vid_file_map (f :: rest) video_language translation_languages
        serv key none none gui load engine provider).2.evs ∧
    ∀ g, Ev.engineTranscribe g ∉ (subtitle vid_file_map (f :: rest) video_language
        translation_languages serv key none none gui load engine provider).2.evs := by
  cases gui <;>
    simp [subtitle, init_model_exhausted load hfail, subtitleFilesLoop, transcribe_audio,
      hlang, print_and_update_progress, logEvs]

/-- Witness for C2 (amended): every load fails, one input in english;
the run errors on the absent model with the input already read. -/
theorem claim_c2_witness :
    (subtitle (fun a => a ++ ".mp4") ("a.wav" :: []) "english" ["spanish"] "google" none
        none none true (fun _ => LoadOutcome.otherError) (fun _ _ => [])
        (fun l => l.map some)).1 = Except.error RunError.noneTranscribe ∧
    Ev.loadAudio "a.wav" ∈ (subtitle (fun a => a ++ ".mp4") ("a.wav" :: []) "english"
        ["spanish"] "google" none none none true (fun _ => LoadOutcome.otherError)
        (fun _ _ => []) (fun l => l.map some)).2.evs ∧
    ∀ g, Ev.engineTranscribe g ∉ (subtitle (fun a => a ++ ".mp4") ("a.wav" :: []) "english"
        ["spanish"] "google" none none none true (fun _ => LoadOutcome.otherError)
        (fun _ _ => []) (fun l => l.map some)).2.evs :=
  claim_c2_no_model_aborts_late (fun a => a ++ ".mp4") "a.wav" [] "english" ["spanish"]
    "google" none true (fun _ => LoadOutcome.otherError) (fun _ _ => []) (fun l => l.map some)
    (fun _ h => LoadOutcome.noConfusion h) (by decide)

/-- Counterexample for C2 as stated: model acquisition exhausts its
fallback list (`init_model` yields `None`), yet the run's event trace
contains the read of the audio input `a.wav` — the abort happens after
touching the input, not before. -/
theorem claim_c2_counterexample :
    (init_model none none (fun _ => LoadOutcome.otherError)).model = Except.ok none ∧
    subtitle (fun a => a ++ ".mp4") ["a.wav"] "english" [] "google" none none none false
        (fun _ => LoadOutcome.otherError) (fun _ _ => []) (fun l => l.map some) =
      (Except.error RunError.noneTranscribe, ⟨1, 4, [Ev.loadAudio "a.wav"]⟩) :=
  ⟨rfl, rfl⟩

theorem progressSignals_append (a b : List Ev) :
    progressSignals (a ++ b) = progressSignals a ++ progressSignals b := by
  simp [progressSignals, List.filterMap_append]

theorem range_map_add (c T a b : Nat) :
    (List.range a).map (fun k => (c + k, T)) ++ (List.range b).map (fun k => (c + a + k, T)) =
      (List.range (a + b)).map (fun k => (c + k, T)) := by
  rw [List.range_add, List.map_append, List.map_map]
  congr 1
  apply List.map_congr_left
  intro k _
  simp [Function.comp, Nat.add_assoc]

theorem dictInsert_length_le {α : Type} (d : List (Nat × α)) (k : Nat) (v : α) :
    (dictInsert d k v).length ≤ d.length + 1 := by
  unfold dictInsert
  split <;> simp

theorem buildPhase_len_aux (t : TResult) :
    ∀ (acc : List (Nat × String × String) × List String),
      (t.foldl
        (fun acc p =>
          (dictInsert acc.1 p.1 (p.2.start_time, p.2.end_time), acc.2 ++ [p.2.text]))
        acc).1.length ≤ acc.1.length + t.length ∧
      (t.foldl
        (fun acc p =>
          (dictInsert acc.1 p.1 (p.2.start_time, p.2.end_time), acc.2 ++ [p.2.text]))
        acc).2.length = acc.2.length + t.length := by
  induction t with
  | nil => intro acc; simp
  | cons hd tl ih =>
      intro acc
      rw [List.foldl_cons]
      refine ⟨le_trans (ih _).1 ?_, ?_⟩
      · have := dictInsert_length_le acc.1 hd.1 (hd.2.start_time, hd.2.end_time)
        simp only [List.length_cons]
        omega
      · rw [(ih _).2]
        simp
        omega

theorem buildPhase_fst_le (t : TResult) : (buildPhase t).1.length ≤ t.length := by
  have := (buildPhase_len_aux t ([], [])).1
  simpa [buildPhase] using this

theorem buildPhase_snd_len (t : TResult) : (buildPhase t).2.length = t.length := by
  have := (buildPhase_len_aux t ([], [])).2
  simpa [buildPhase] using this

theorem translate_google_ok (t : TResult) (tlang lang : String) (key : Option String)
    (provider : List String → List (Option String))
    (hprov : ∀ l, l.length ≤ (provider l).length) :
    ∃ r, translate_transcribed_result t tlang lang "google" key provider =
      (Except.ok r, true) := by
  unfold translate_transcribed_result
  have hinit : init_translator "google" tlang lang key = Except.ok () := by
    simp [init_translator, SUPPORTED_TRANSLATORS]
  rw [hinit]
  show ∃ r, (assignTexts (buildPhase t).1 (provider (buildPhase t).2), true) =
    (Except.ok r, true)
  have hle : (buildPhase t).1.length ≤ (provider (buildPhase t).2).length :=
    le_trans (le_trans (buildPhase_fst_le t) (buildPhase_snd_len t).symm.le)
      (hprov (buildPhase t).2)
  rw [assignTexts_eq _ _ hle]
  exact ⟨_, rfl⟩

theorem save_result_ok (result : TResult) (lang vid : String) (dflt : Bool)
    (h : (get_lang_iso_code (pyLower lang)).isSome = true) :
    ∃ nb, save_result_as_srt result lang vid dflt = Except.ok nb := by
  obtain ⟨c, hc⟩ := Option.isSome_iff_exists.mp h
  cases dflt <;> simp [save_result_as_srt, concatIso, hc]

theorem range_two_split (c T n : Nat) :
    [(c, T), (c + 1, T)] ++ (List.range n).map (fun k => (c + 2 + k, T)) =
      (List.range (2 + n)).map (fun k => (c + k, T)) := by
  rw [← range_map_add c T 2 n]
  simp [List.range_succ]

theorem range_map_add' (c T a b e : Nat) (he : c + a = e) :
    (List.range a).map (fun k => (c + k, T)) ++ (List.range b).map (fun k => (e + k, T)) =
      (List.range (a + b)).map (fun k => (c + k, T)) := by
  rw [List.range_add, List.map_append, List.map_map]
  congr 1
  apply List.map_congr_left
  intro k hk
  simp only [Function.comp, Prod.mk.injEq]
  refine ⟨by omega, by simp⟩

theorem langsLoop_progress (provider : List String → List (Option String))
    (key : Option String) (vlang : String) (r : TResult) (vid : String)
    (hprov : ∀ l, l.length ≤ (provider l).length) :
    ∀ (langs : List String) (st : SubState),
      (∀ l ∈ langs, (get_lang_iso_code (pyLower l)).isSome = true) →
      (subtitleLangsLoop true provider "google" key vlang r vid langs st).1 = Except.ok () ∧
      progressSignals (subtitleLangsLoop true provider "google" key vlang r vid langs st).2.evs =
        progressSignals st.evs ++
          (List.range (2 * langs.length)).map (fun k => (st.current_step + k, st.total_steps)) ∧
      (subtitleLangsLoop true provider "google" key vlang r vid langs st).2.current_step =
        st.current_step + 2 * langs.length ∧
      (subtitleLangsLoop true provider "google" key vlang r vid langs st).2.total_steps =
        st.total_steps := by
  intro langs
  induction langs with
  | nil =>
      intro st _
      simp [subtitleLangsLoop]
  | cons lg tl ih =>
      intro st hiso
      obtain ⟨r2, hr2⟩ := translate_google_ok r vlang lg key provider hprov
      obtain ⟨nb, hnb⟩ := save_result_ok r2 lg vid false (hiso lg (by simp))
      have hstep : subtitleLangsLoop true provider "google" key vlang r vid (lg :: tl) st =
          subtitleLangsLoop true provider "google" key vlang r vid tl
            (print_and_update_progress true true
              (logEvs (print_and_update_progress true true (logEvs st [Ev.batchTranslate]))
                [Ev.saveSrt nb.1])) := by
        simp only [subtitleLangsLoop, hr2, hnb]
        rfl
      rw [hstep]
      have h4 : (print_and_update_progress true true
          (logEvs (print_and_update_progress true true (logEvs st [Ev.batchTranslate]))
            [Ev.saveSrt nb.1])) =
          ⟨st.current_step + 2, st.total_steps,
            st.evs ++ [Ev.batchTranslate, Ev.progress st.current_step st.total_steps,
              Ev.saveSrt nb.1, Ev.progress (st.current_step + 1) st.total_steps]⟩ := by
        simp [print_and_update_progress, logEvs]
      rw [h4]
      obtain ⟨ih1, ih2, ih3, ih4⟩ := ih ⟨st.current_step + 2, st.total_steps,
        st.evs ++ [Ev.batchTranslate, Ev.progress st.current_step st.total_steps,
          Ev.saveSrt nb.1, Ev.progress (st.current_step + 1) st.total_steps]⟩
        (fun l hl => hiso l (by simp [hl]))
      refine ⟨ih1, ?_, ?_, ?_⟩
      · rw [ih2]
        have hlit : progressSignals (st.evs ++ [Ev.batchTranslate,
            Ev.progress st.current_step st.total_steps, Ev.saveSrt nb.1,
            Ev.progress (st.current_step + 1) st.total_steps]) =
            progressSignals st.evs ++ [(st.current_step, st.total_steps),
              (st.current_step + 1, st.total_steps)] := by
          rw [progressSignals_append]
          rfl
        rw [hlit, List.append_assoc]
        congr 1
        have hr2s : (2 : Nat) * (lg :: tl).length = 2 + 2 * tl.length := by
          simp only [List.length_cons]
          omega
        rw [hr2s, ← range_two_split]
      · rw [ih3]
        simp only [List.length_cons]
        omega
      · rw [ih4]

theorem filesLoop_progress (engine : String → String → List RawSeg)
    (provider : List String → List (Option String)) (vid_file_map : String → String)
    (vlang : String) (langs : List String) (key : Option String) (m : String)
    (hlang : (TRANSCRIPTION_SUPPORTED_LANGS.lookup (pyLower vlang)).isNone = false)
    (hiso_v : (get_lang_iso_code (pyLower vlang)).isSome = true)
    (hiso : ∀ l ∈ langs, (get_lang_iso_code (pyLower l)).isSome = true)
    (hprov : ∀ l, l.length ≤ (provider l).length) :
    ∀ (files : List String) (st : SubState),
      (subtitleFilesLoop true engine provider vid_file_map vlang langs "google" key (some m)
        files st).1 = Except.ok () ∧
      progressSignals (subtitleFilesLoop true engine provider vid_file_map vlang langs
          "google" key (some m) files st).2.evs =
        progressSignals st.evs ++
          (List.range (2 * files.length * (1 + langs.length))).map
            (fun k => (st.current_step + k, st.total_steps)) ∧
      (subtitleFilesLoop true engine provider vid_file_map vlang langs "google" key (some m)
          files st).2.current_step = st.current_step + 2 * files.length * (1 + langs.length) ∧
      (subtitleFilesLoop true engine provider vid_file_map vlang langs "google" key (some m)
          files st).2.total_steps = st.total_steps := by
  intro files
  induction files with
  | nil =>
      intro st
      simp [subtitleFilesLoop]
  | cons f rest ihf =>
      intro st
      have htrans : transcribe_audio engine (some m) f vlang =
          (Except.ok (post_process_result_for_srt (engine m f)),
            [Ev.loadAudio f, Ev.engineTranscribe f]) := by
        simp [transcribe_audio, hlang]
      obtain ⟨nb, hnb⟩ := save_result_ok (post_process_result_for_srt (engine m f)) vlang
        (vid_file_map f) true hiso_v
      obtain ⟨hL1, hL2, hL3, hL4⟩ := langsLoop_progress provider key vlang
        (post_process_result_for_srt (engine m f)) (vid_file_map f) hprov langs
        ⟨st.current_step + 2, st.total_steps,
          st.evs ++ [Ev.loadAudio f, Ev.engineTranscribe f,
            Ev.progress st.current_step st.total_steps, Ev.saveSrt nb.1,
            Ev.progress (st.current_step + 1) st.total_steps]⟩ hiso
      rcases hL : subtitleLangsLoop true provider "google" key vlang
          (post_process_result_for_srt (engine m f)) (vid_file_map f) langs
          ⟨st.current_step + 2, st.total_steps,
            st.evs ++ [Ev.loadAudio f, Ev.engineTranscribe f,
              Ev.progress st.current_step st.total_steps, Ev.saveSrt nb.1,
              Ev.progress (st.current_step + 1) st.total_steps]⟩ with ⟨resL, stL⟩
      rw [hL] at hL1 hL2 hL3 hL4
      simp only at hL1 hL2 hL3 hL4
      have hstep : subtitleFilesLoop true engine provider vid_file_map vlang langs "google"
          key (some m) (f :: rest) st =
          subtitleFilesLoop true engine provider vid_file_map vlang langs "google" key
            (some m) rest stL := by
        simp only [subtitleFilesLoop, htrans, hnb]
        have hSeq : (print_and_update_progress true true
            (logEvs (print_and_update_progress true true
              (logEvs st [Ev.loadAudio f, Ev.engineTranscribe f])) [Ev.saveSrt nb.1])) =
            (⟨st.current_step + 2, st.total_steps,
              st.evs ++ [Ev.loadAudio f, Ev.engineTranscribe f,
                Ev.progress st.current_step st.total_steps, Ev.saveSrt nb.1,
                Ev.progress (st.current_step + 1) st.total_steps]⟩ : SubState) := by
          simp [print_and_update_progress, logEvs]
        rw [hSeq, hL, hL1]
      rw [hstep]
      obtain ⟨ih1, ih2, ih3, ih4⟩ := ihf stL
      refine ⟨ih1, ?_, ?_, ?_⟩
      · rw [ih2, hL2, hL3, hL4]
        have hlit : progressSignals (st.evs ++ [Ev.loadAudio f, Ev.engineTranscribe f,
            Ev.progress st.current_step st.total_steps, Ev.saveSrt nb.1,
            Ev.progress (st.current_step + 1) st.total_steps]) =
            progressSignals st.evs ++ [(st.current_step, st.total_steps),
              (st.current_step + 1, st.total_steps)] := by
          rw [progressSignals_append]
          rfl
        rw [hlit, List.append_assoc, List.append_assoc]
        congr 1
        rw [← List.append_assoc, range_two_split]
        have hn : (2 : Nat) * (f :: rest).length * (1 + langs.length) =
            (2 + 2 * langs.length) + 2 * rest.length * (1 + langs.length) := by
          simp only [List.length_cons]
          ring
        rw [hn]
        conv_rhs => rw [← range_map_add' st.current_step st.total_steps
          (2 + 2 * langs.length) (2 * rest.length * (1 + langs.length))
          (st.current_step + 2 + 2 * langs.length) (by omega)]
      · rw [ih3, hL3]
        simp only [List.length_cons]
        ring
      · rw [ih4, hL4]

/-- Claim C6 (amended): in gui mode a successful run emits this exact
signal sequence: two `1/2` signals (before and after model load, while
`total_steps` is still 2), then — after `total_steps` has grown to
`T = 2 + 2·I + 2·I·L` for `I` inputs and `L` target languages — an
announce signal `2/T` followed by one signal per completed step whose
currents run `2, 3, …, 1 + 2·I·L + 2·I` (each step prints before
incrementing, so `T/T` is never shown).  The `current` values are
non-decreasing, but the original claim is false: the first two signals
carry total 2, not `T`, the displayed fraction drops from 1/2 to
`2/T` when `T > 4`, and there are `3 + 2·I + 2·I·L` signals for
`2 + 2·I + 2·I·L` steps — see the counterexample. -/
theorem claim_c6_progress_accounting (vid_file_map : String → String) (audio_files : List String)
    (video_language : String) (translation_languages : List String) (key : Option String)
    (msz pref : Option String) (load : String → LoadOutcome)
    (engine : String → String → List RawSeg) (provider : List String → List (Option String))
    (m : String)
    (hmodel : (init_model msz pref load).model = Except.ok (some m))
    (hlang : (TRANSCRIPTION_SUPPORTED_LANGS.lookup (pyLower video_language)).isNone = false)
    (hiso_v : (get_lang_iso_code (pyLower video_language)).isSome = true)
    (hiso : ∀ l ∈ translation_languages, (get_lang_iso_code (pyLower l)).isSome = true)
    (hprov : ∀ l, l.length ≤ (provider l).length) :
    (subtitle vid_file_map audio_files video_language translation_languages "google" key
        msz pref true load engine provider).1 = Except.ok () ∧
    progressSignals (subtitle vid_file_map audio_files video_language translation_languages
        "google" key msz pref true load engine provider).2.evs =
      [(1, 2), (1, 2),
        (2, 2 + audio_files.length * 2 + audio_files.length * translation_languages.length * 2)]
        ++ (List.range (2 * audio_files.length * (1 + translation_languages.length))).map
          (fun k => (2 + k,
            2 + audio_files.length * 2 +
              audio_files.length * translation_languages.length * 2)) := by
  have hsub : subtitle vid_file_map audio_files video_language translation_languages "google"
      key msz pref true load engine provider =
      subtitleFilesLoop true engine provider vid_file_map video_language
        translation_languages "google" key (some m) audio_files
        ⟨2, 2 + audio_files.length * 2 + audio_files.length * translation_languages.length * 2,
          [Ev.progress 1 2, Ev.progress 1 2,
            Ev.progress 2 (2 + audio_files.length * 2 +
              audio_files.length * translation_languages.length * 2)]⟩ := by
    simp only [subtitle, hmodel]
    rfl
  obtain ⟨h1, h2, h3, h4⟩ := filesLoop_progress engine provider vid_file_map video_language
    translation_languages key m hlang hiso_v hiso hprov audio_files
    ⟨2, 2 + audio_files.length * 2 + audio_files.length * translation_languages.length * 2,
      [Ev.progress 1 2, Ev.progress 1 2,
        Ev.progress 2 (2 + audio_files.length * 2 +
          audio_files.length * translation_languages.length * 2)]⟩
  rw [hsub]
  exact ⟨h1, by rw [h2]; rfl⟩

/-- Witness for C6 (amended): one input and one target language in gui
mode, everything succeeding; the emitted signals are
`1/2, 1/2, 2/6, 2/6, 3/6, 4/6, 5/6`. -/
theorem claim_c6_witness :
    (subtitle (fun a => a ++ ".mp4") ["a.wav"] "english" ["spanish"] "google" none none none
        true (fun _ => LoadOutcome.ok) (fun _ _ => [⟨0, 0, 1000000, " hi "⟩])
        (fun l => l.map some)).1 = Except.ok () ∧
    progressSignals (subtitle (fun a => a ++ ".mp4") ["a.wav"] "english" ["spanish"] "google"
        none none none true (fun _ => LoadOutcome.ok) (fun _ _ => [⟨0, 0, 1000000, " hi "⟩])
        (fun l => l.map some)).2.evs =
      [(1, 2), (1, 2), (2, 6), (2, 6), (3, 6), (4, 6), (5, 6)] :=
  ⟨(claim_c6_progress_accounting (fun a => a ++ ".mp4") ["a.wav"] "english" ["spanish"] none
      none none (fun _ => LoadOutcome.ok) (fun _ _ => [⟨0, 0, 1000000, " hi "⟩])
      (fun l => l.map some) "large-v3-turbo" rfl (by decide) (by decide) (by decide)
      (fun l => by simp)).1,
    by
      rw [(claim_c6_progress_accounting (fun a => a ++ ".mp4") ["a.wav"] "english" ["spanish"]
        none none none (fun _ => LoadOutcome.ok) (fun _ _ => [⟨0, 0, 1000000, " hi "⟩])
        (fun l => l.map some) "large-v3-turbo" rfl (by decide) (by decide) (by decide)
        (fun l => by simp)).2]
      rfl⟩

/-- Counterexample for C6 as stated: with I = 1 input and T = 1 target
language (total `2 + 2·1 + 2·1·1 = 6`), the run emits
`1/2, 1/2, 2/6, 2/6, 3/6, 4/6, 5/6` — the first two signals carry
total 2 rather than 6, the displayed fraction decreases from 1/2 to
2/6 between the second and third signal, and the completed `6/6`
signal is never emitted. -/
theorem claim_c6_counterexample :
    progressSignals (subtitle (fun a => a ++ ".mp4") ["a.wav"] "english" ["spanish"] "google"
        none none none true (fun _ => LoadOutcome.ok) (fun _ _ => [⟨0, 0, 1000000, " hi "⟩])
        (fun l => l.map some)).2.evs =
      [(1, 2), (1, 2), (2, 6), (2, 6), (3, 6), (4, 6), (5, 6)] ∧
    (2 : Nat) + 2 * 1 + 2 * 1 * 1 = 6 ∧
    ((1, 2) ∈ [(1, 2), (1, 2), (2, 6), (2, 6), (3, 6), (4, 6), (5, 6)] ∧ (2 : Nat) ≠ 6) ∧
    2 * 2 < 1 * 6 ∧
    (6, 6) ∉ [(1, 2), (1, 2), (2, 6), (2, 6), (3, 6), (4, 6), (5, 6)] :=
  ⟨by decide, by decide, ⟨by decide, by decide⟩, by decide, by decide⟩

end Subtitler
